import Mathlib

/-
Verification development for the pyccel expression type-inference engine
(pyccel/ast/operators.py) and the C boundary-wrapper generator
(pyccel/codegen/printing/cwrappercode.py).

The Python classes are shallowly embedded: each `_calculate_*` method and the
broadcast resolver become executable Lean functions over an explicit data
model of typed expression nodes; fatal error reports (Errors().report with
severity fatal, and raised PyccelSemanticError) become `Except` errors.
-/

set_option maxHeartbeats 1000000

namespace Pyccel

/-- Scalar data-type kinds of the semantic stage.  Modelled from the spec:
the datatypes module is outside the studied sources; the spec fixes the kinds
bool, integer, real, complex, string and generic/opaque, with the numeric
ordering bool < integer < real < complex. -/
inductive DType where
  | bool
  | int
  | real
  | cmplx
  | str
  | generic
deriving DecidableEq

/-- Dimension expressions appearing in array shapes: integer literals
(LiteralInteger nodes) or symbolic sizes (variables). -/
inductive DimExpr where
  | lit : Int → DimExpr
  | sym : String → DimExpr
deriving DecidableEq

/-- Modelled from the spec: the compile-time-constant test of the symbolic
oracle (sympy is_constant, reached through pyccel_to_sympy which is outside
the studied sources).  Integer literals are constants, symbols are not. -/
def isConstantDim : DimExpr → Bool
  | .lit _ => true
  | .sym _ => false

/-- Modelled from the spec: provable equality of two dimension expressions
under the symbolic-equality oracle (structural equality on this fragment). -/
def dimEq (e1 e2 : DimExpr) : Bool := decide (e1 = e2)

/-- Modelled from the spec: the oracle's test that a dimension expression is
provably the literal one. -/
def dimIsOne (e : DimExpr) : Bool := decide (e = DimExpr.lit 1)

/-- Modelled from the spec: whether the difference of two dimension
expressions is provably a compile-time constant.  On this fragment the
difference is constant exactly when both sides are constants or the two
expressions cancel. -/
def diffIsConstantDim (e1 e2 : DimExpr) : Bool :=
  (isConstantDim e1 && isConstantDim e2) || decide (e1 = e2)

/-- The PyccelSemanticError raised by the broadcast resolver; it names the two
original input shapes (operators.py lines 88-91). -/
structure BroadcastError where
  shape1 : List DimExpr
  shape2 : List DimExpr
deriving DecidableEq

/-- Resolution of one aligned dimension pair: the loop body of `broadcast`
(operators.py lines 70-91).  `shape_1` and `shape_2` are the original shapes,
used only in the error. -/
def broadcastDim (shape_1 shape_2 : List DimExpr) (e1 e2 : DimExpr) :
    Except BroadcastError DimExpr :=
  if dimEq e1 e2 then .ok e1
  else if dimIsOne e1 then .ok e2
  else if dimIsOne e2 then .ok e1
  else if isConstantDim e1 && !isConstantDim e2 then .ok e1
  else if isConstantDim e2 && !isConstantDim e1 then .ok e2
  else if !isConstantDim e2 && !isConstantDim e1 && !diffIsConstantDim e1 e2 then .ok e1
  else .error ⟨shape_1, shape_2⟩

/-- The broadcast resolver `broadcast` (operators.py lines 52-92): left-pad
the shorter shape with literal ones, then resolve each aligned pair. -/
def broadcast (shape_1 shape_2 : List DimExpr) : Except BroadcastError (List DimExpr) :=
  let a := shape_1.length
  let b := shape_2.length
  let padded :=
    if a > b then (shape_1, List.replicate (a - b) (DimExpr.lit 1) ++ shape_2)
    else if b > a then (List.replicate (b - a) (DimExpr.lit 1) ++ shape_1, shape_2)
    else (shape_1, shape_2)
  (padded.1.zip padded.2).mapM (fun p => broadcastDim shape_1 shape_2 p.1 p.2)

/-- Memory/storage order of an array expression (C row-major or F
column-major); scalars carry no order. -/
inductive MemOrder where
  | C
  | F
deriving DecidableEq

/-- A typed expression node as seen by the type-inference engine: the result
of upstream semantic analysis, carrying dtype, precision, rank (None for
objects such as lambdas), shape (individual entries may be unknown) and
order.  `isNil` marks the Nil (None) literal node. -/
structure TypedExpr where
  dtype : DType
  precision : Nat
  rank : Option Nat
  shape : Option (List (Option DimExpr))
  order : Option MemOrder
  isNil : Bool
deriving DecidableEq

/-- Modelled from the spec: the default real precision of the missing
datatypes module (python floats are 64-bit reals). -/
def default_precision_real : Nat := 64

/-- Modelled from the spec: the default bool precision of the missing
datatypes module. -/
def default_precision_bool : Nat := 8

/-- The binary arithmetic operator nodes (the concrete subclasses of
PyccelArithmeticOperator in operators.py). -/
inductive ArithOp where
  | pow
  | add
  | minus
  | mul
  | div
  | mod
  | floorDiv
deriving DecidableEq

/-- Python max over the precisions of a list of operands (0 on the empty
list, which the source never reaches: the buckets are tested nonempty). -/
def maxPrec (l : List TypedExpr) : Nat := l.foldl (fun m a => max m a.precision) 0

/-- `_handle_str_type`: PyccelAdd overrides the base method to give a string
result with no precision (operators.py lines 505-509); every other
arithmetic operator keeps the base method which raises a TypeError (lines
364-369; the message is abbreviated here). -/
def handle_str_type (op : ArithOp) : Except String (DType × Option Nat) :=
  if op = ArithOp.add then .ok (DType.str, none)
  else .error ("unsupported operand types for str and str")

/-- `PyccelBinaryOperator._calculate_dtype` (operators.py lines 338-362),
with the PyccelDiv override of `_handle_integer_type` (lines 589-593)
dispatched on the operator kind.  Operands are partitioned into the
integer-or-bool, real, complex and string buckets; the highest present
bucket fixes the kind and its maximal precision the precision, except that
integer division promotes to the default real precision. -/
def PyccelBinaryOperator_calculate_dtype (op : ArithOp) (args : List TypedExpr) :
    Except String (DType × Option Nat) :=
  let integers  := args.filter (fun a => a.dtype == DType.int || a.dtype == DType.bool)
  let reals     := args.filter (fun a => a.dtype == DType.real)
  let complexes := args.filter (fun a => a.dtype == DType.cmplx)
  let strs      := args.filter (fun a => a.dtype == DType.str)
  if !strs.isEmpty then handle_str_type op
  else if !complexes.isEmpty then .ok (DType.cmplx, some (maxPrec complexes))
  else if !reals.isEmpty then .ok (DType.real, some (maxPrec reals))
  else if !integers.isEmpty then
    if op = ArithOp.div then .ok (DType.real, some default_precision_real)
    else .ok (DType.int, some (maxPrec integers))
  else .error ("cannot determine the type")

/-- Whether a node's shape is fully known: the shape tuple exists and every
entry is a known dimension expression. -/
def shapeFullyKnown (a : TypedExpr) : Bool :=
  match a.shape with
  | some l => l.all (fun x => x.isSome)
  | none => false

/-- The known dimension entries of a shape tuple. -/
def knownDims (l : List (Option DimExpr)) : List DimExpr := l.filterMap id

/-- `PyccelBinaryOperator._calculate_shape_rank` (operators.py lines
398-427), returned as (shape, rank).  Note that line 420 of the source
broadcasts the SECOND operand's shape with itself, `broadcast(_args[1].shape,
_args[1].shape)`; the embedding reproduces that call faithfully. -/
def PyccelBinaryOperator_calculate_shape_rank (arg1 arg2 : TypedExpr) :
    Except BroadcastError (Option (List (Option DimExpr)) × Option Nat) :=
  let args := [arg1, arg2]
  let strs := args.filter (fun a => a.dtype == DType.str)
  if !strs.isEmpty then .ok (some [], some 0)
  else
    let ranks := args.map (fun a => a.rank)
    if ranks.contains none then .ok (none, none)
    else if args.all shapeFullyKnown then
      match broadcast (knownDims (arg2.shape.getD [])) (knownDims (arg2.shape.getD [])) with
      | .ok shape => .ok (some (shape.map some), some shape.length)
      | .error e => .error e
    else
      let r := max (arg1.rank.getD 0) (arg2.rank.getD 0)
      .ok (some (List.replicate r none), some r)

/-- `PyccelComparisonOperator._calculate_dtype` (operators.py lines 659-663):
always bool with the default bool precision, shared by all six comparison
nodes. -/
def PyccelComparisonOperator_calculate_dtype (_args : List TypedExpr) : DType × Option Nat :=
  (DType.bool, some default_precision_bool)

/-- PyccelComparisonOperator does not override `_calculate_shape_rank`; the
comparison nodes inherit PyccelBinaryOperator's broadcasting rule. -/
def PyccelComparisonOperator_calculate_shape_rank (arg1 arg2 : TypedExpr) :
    Except BroadcastError (Option (List (Option DimExpr)) × Option Nat) :=
  PyccelBinaryOperator_calculate_shape_rank arg1 arg2

/-- `PyccelBooleanOperator._calculate_dtype` (operators.py lines 795-799),
shared by PyccelAnd, PyccelOr, PyccelIs and PyccelIsNot. -/
def PyccelBooleanOperator_calculate_dtype (_args : List TypedExpr) : DType × Option Nat :=
  (DType.bool, some default_precision_bool)

/-- `PyccelBooleanOperator._calculate_shape_rank` (operators.py lines
801-805): rank 0 and the empty shape, for all operands. -/
def PyccelBooleanOperator_calculate_shape_rank (_args : List TypedExpr) :
    Option (List (Option DimExpr)) × Option Nat :=
  (some [], some 0)

/-- A scalar node of the given dtype and precision. -/
def scalarNode (d : DType) (p : Nat) : TypedExpr :=
  { dtype := d, precision := p, rank := some 0, shape := some [],
    order := none, isNil := false }

/-- An array node of the given dtype and precision whose shape is the given
list of literal extents. -/
def vecNode (d : DType) (p : Nat) (dims : List Int) : TypedExpr :=
  { dtype := d, precision := p, rank := some dims.length,
    shape := some (dims.map (fun n => some (DimExpr.lit n))),
    order := some MemOrder.C, isNil := false }

/-- Claim-side definition (C7), following the spec's words: the numeric
buckets ordered complex > real > integer-or-bool. -/
def specBucket : DType → Nat
  | DType.cmplx => 3
  | DType.real => 2
  | _ => 1

/-- Claim-side definition (C7), following the spec's words: the result kind
is the highest present bucket, the precision the maximal precision among the
operands of that bucket; division of two integer-bucket operands is the sole
exception and promotes to the default real precision. -/
def specPromote (op : ArithOp) (a b : TypedExpr) : DType × Option Nat :=
  let top := max (specBucket a.dtype) (specBucket b.dtype)
  let inTop := [a, b].filter (fun x => specBucket x.dtype == top)
  if top = 1 ∧ op = ArithOp.div then (DType.real, some default_precision_real)
  else ((if top = 3 then DType.cmplx else if top = 2 then DType.real else DType.int),
        some (maxPrec inTop))

/-- Modelled from the spec: the NativeNumeric tuple of the missing datatypes
module, listing the numeric kinds in the promotion order
bool < integer < real < complex. -/
def NativeNumericList : List DType := [DType.bool, DType.int, DType.real, DType.cmplx]

/-- The index of a dtype inside NativeNumericList (list.index in Python;
non-numeric kinds are never looked up by the source). -/
def nativeNumericIndex : DType → Nat
  | DType.bool => 0
  | DType.int => 1
  | DType.real => 2
  | DType.cmplx => 3
  | DType.str => 4
  | DType.generic => 5

/-- Python max over two dtypes keyed by NativeNumericList.index: the second
argument is returned only when its key is strictly larger (Python max keeps
the first maximal element). -/
def maxDtypeByIndex (a b : DType) : DType :=
  if nativeNumericIndex b > nativeNumericIndex a then b else a

/-- Whether an optional rank is known and greater than one (the guard
`self._rank is not None and self._rank > 1` of the source). -/
def rankGtOne : Option Nat → Bool
  | some r => decide (r > 1)
  | none => false

/-- The Python source checks `isinstance(value_true, NativeString)` on the
ternary branches (operators.py line 942).  The branches are expression
nodes, and an expression node is never an instance of the datatype class
NativeString, so the test is identically false; the embedding records that
fact. -/
def isinstance_NativeString (_v : TypedExpr) : Bool := false

/-- The node produced by a successful IfTernaryOperator construction. -/
structure TernaryNode where
  dtype : DType
  precision : Nat
  shape : Option (List (Option DimExpr))
  rank : Option Nat
  order : Option MemOrder
deriving DecidableEq

/-- `IfTernaryOperator._calculate_dtype` (operators.py lines 952-963). -/
def IfTernaryOperator_calculate_dtype (value_true value_false : TypedExpr) : DType × Nat :=
  let d := if NativeNumericList.contains value_true.dtype
              && NativeNumericList.contains value_false.dtype
           then maxDtypeByIndex value_true.dtype value_false.dtype
           else value_true.dtype
  (d, max value_true.precision value_false.precision)

/-- `IfTernaryOperator._calculate_shape_rank` (operators.py lines 965-975):
shape and rank are copied from value_true; when the rank exceeds 1 a
differing storage order of the two branches is a fatal error. -/
def IfTernaryOperator_calculate_shape_rank (value_true value_false : TypedExpr) :
    Except String (Option (List (Option DimExpr)) × Option Nat) :=
  let sh := value_true.shape
  let rk := value_true.rank
  if rankGtOne rk then
    if value_false.order ≠ value_true.order then
      .error ("Ternary Operator results should have the same order")
    else .ok (sh, rk)
  else .ok (sh, rk)

/-- `PyccelOperator._set_order` (operators.py lines 169-177) for the ternary
node: the order of the first argument (the condition) if all three arguments
agree, else C; only applied when the rank exceeds 1. -/
def IfTernaryOperator_set_order (cond value_true value_false : TypedExpr)
    (rk : Option Nat) : Option MemOrder :=
  if rankGtOne rk then
    if value_true.order = cond.order ∧ value_false.order = cond.order
    then cond.order else some MemOrder.C
  else none

/-- Construction of an IfTernaryOperator node at the semantic stage
(operators.py lines 935-950 together with PyccelOperator.__init__ lines
109-120): the superclass first computes dtype and shape/rank (where a
storage-order mismatch at rank > 1 is fatal), then the subclass checks the
Nil branches, the (ineffective) NativeString instance test, incompatible
dtypes, and differing ranks and shapes. -/
def IfTernaryOperator_new (cond value_true value_false : TypedExpr) :
    Except String TernaryNode :=
  let dp := IfTernaryOperator_calculate_dtype value_true value_false
  match IfTernaryOperator_calculate_shape_rank value_true value_false with
  | .error e => .error e
  | .ok (sh, rk) =>
    let ord := IfTernaryOperator_set_order cond value_true value_false rk
    if value_true.isNil || value_false.isNil then
      .error ("None is not implemented for Ternary Operator")
    else if isinstance_NativeString value_true || isinstance_NativeString value_false then
      .error ("String is not implemented for Ternary Operator")
    else if value_true.dtype ≠ value_false.dtype
            ∧ (value_true.dtype ∉ NativeNumericList ∨ value_false.dtype ∉ NativeNumericList) then
      .error ("The types are incompatible in IfTernaryOperator")
    else if value_false.rank ≠ value_true.rank then
      .error ("Ternary Operator results should have the same rank")
    else if value_false.shape ≠ value_true.shape then
      .error ("Ternary Operator results should have the same shape")
    else .ok ⟨dp.1, dp.2, sh, rk, ord⟩

/-- A scalar string-typed expression node (for instance a string literal;
string expressions carry no meaningful precision). -/
def strScalarNode : TypedExpr :=
  { dtype := DType.str, precision := 0, rank := some 0, shape := some [],
    order := none, isNil := false }

/-- Literal nodes as they reach the PyccelAdd and PyccelMinus constructors.
Modelled from the spec where the literals module (outside the studied
sources) is concerned: a complex literal stores its real and imaginary part
values, and literal equality compares stored values.  Values are modelled by
rationals: the folding only compares a stored real part with zero and
negates values, which are exact operations on machine floats as well. -/
inductive LitNode where
  | litInt : Int → LitNode
  | litFloat : Rat → LitNode
  | litComplex : Rat → Rat → LitNode
  | otherNode : LitNode
deriving DecidableEq

/-- The numeric value of an integer or float literal node (only ever used on
those). -/
def litValue : LitNode → Rat
  | .litInt n => (n : Rat)
  | .litFloat q => q
  | .litComplex _ _ => 0
  | .otherNode => 0

/-- `isinstance(a, (LiteralInteger, LiteralFloat))`. -/
def isIntOrFloatLit : LitNode → Bool
  | .litInt _ => true
  | .litFloat _ => true
  | _ => false

/-- `isinstance(a, LiteralFloat)`. -/
def isFloatLit : LitNode → Bool
  | .litFloat _ => true
  | _ => false

/-- The real part of a complex literal (`none` when the node is not a
complex literal, so that `complexRe a = some 0` renders the Python test
`isinstance(a, LiteralComplex) and a.real == LiteralFloat(0)`). -/
def complexRe : LitNode → Option Rat
  | .litComplex re _ => some re
  | _ => none

/-- The imaginary part value of a complex literal. -/
def complexIm : LitNode → Rat
  | .litComplex _ im => im
  | _ => 0

/-- The literal-folding branches of `PyccelAdd.__new__` (operators.py lines
493-503): an integer or float literal added to a complex literal with zero
real part folds to a complex literal; `none` means the constructor falls
through to `super().__new__` and builds a genuine addition node. -/
def PyccelAdd_new_fold (arg1 arg2 : LitNode) : Option LitNode :=
  if isIntOrFloatLit arg1 ∧ complexRe arg2 = some 0 then
    some (.litComplex (litValue arg1) (complexIm arg2))
  else if isIntOrFloatLit arg2 ∧ complexRe arg1 = some 0 then
    some (.litComplex (litValue arg2) (complexIm arg1))
  else none

/-- The literal-folding branches of `PyccelMinus.__new__` (operators.py
lines 555-565): only float literals fold, with the sign negations of
subtraction. -/
def PyccelMinus_new_fold (arg1 arg2 : LitNode) : Option LitNode :=
  if isFloatLit arg1 ∧ complexRe arg2 = some 0 then
    some (.litComplex (litValue arg1) (-(complexIm arg2)))
  else if isFloatLit arg2 ∧ complexRe arg1 = some 0 then
    some (.litComplex (-(litValue arg2)) (complexIm arg1))
  else none

/-- Operator kinds of the expression nodes: the concrete PyccelOperator
subclasses of operators.py. -/
inductive OpKind where
  | paren
  | unary
  | unarySub
  | opNot
  | pow
  | add
  | minus
  | mul
  | div
  | mod
  | floorDiv
  | eq
  | ne
  | lt
  | le
  | gt
  | ge
  | opAnd
  | opOr
  | opIs
  | opIsNot
  | ternary
deriving DecidableEq

/-- The fixed precedence table: the `_precedence` class attributes of
operators.py (PyccelIsNot inherits precedence 7 from PyccelIs). -/
def opPrec : OpKind → Nat
  | .paren => 18
  | .unary => 14
  | .unarySub => 14
  | .opNot => 6
  | .pow => 15
  | .add => 12
  | .minus => 12
  | .mul => 13
  | .div => 13
  | .mod => 13
  | .floorDiv => 13
  | .eq => 7
  | .ne => 7
  | .lt => 7
  | .le => 7
  | .gt => 7
  | .ge => 7
  | .opAnd => 5
  | .opOr => 4
  | .opIs => 7
  | .opIsNot => 7
  | .ternary => 3

/-- Raw expression trees: operator applications over atoms.  An atom stands
for any operand without a precedence attribute (variables, literals,
function calls), which `getattr(a, 'precedence', 17)` treats as precedence
17. -/
inductive PyExpr where
  | atom : String → PyExpr
  | node : OpKind → List PyExpr → PyExpr

/-- `getattr(a, 'precedence', 17)`. -/
def precedence : PyExpr → Nat
  | .atom _ => 17
  | .node k _ => opPrec k

/-- `isinstance(a, PyccelUnary)`: PyccelUnarySub is a subclass of
PyccelUnary. -/
def isUnaryClassNode : PyExpr → Bool
  | .node .unary _ => true
  | .node .unarySub _ => true
  | _ => false

/-- `isinstance(a, PyccelAnd)`. -/
def isAndNode : PyExpr → Bool
  | .node .opAnd _ => true
  | _ => false

/-- `isinstance(a, PyccelOr)`. -/
def isOrNode : PyExpr → Bool
  | .node .opOr _ => true
  | _ => false

/-- Python min over a nonempty list (0 on the empty list, never reached:
every operator node has at least one argument). -/
def listMin : List Nat → Nat
  | [] => 0
  | [x] => x
  | x :: y :: rest => min x (listMin (y :: rest))

/-- `PyccelOperator._handle_precedence` (operators.py lines 129-164): when
some operand's precedence does not exceed the operator's, each operand whose
precedence is lower, or equal in a non-first position, is wrapped in a
PyccelAssociativeParenthesis node. -/
def handle_precedence_base (p : Nat) (args : List PyExpr) : List PyExpr :=
  let precs := args.map precedence
  if listMin precs ≤ p then
    args.enum.map (fun ia =>
      if precedence ia.2 < p ∨ (precedence ia.2 = p ∧ ia.1 ≠ 0)
      then PyExpr.node .paren [ia.2] else ia.2)
  else args

/-- The extra clarity wrap of PyccelUnary and PyccelArithmeticOperator
(operators.py lines 236-239 and 447-450): unary plus/minus operands are
parenthesized regardless of precedence. -/
def wrapUnaryArgs (args : List PyExpr) : List PyExpr :=
  args.map (fun a => if isUnaryClassNode a then PyExpr.node .paren [a] else a)

/-- The extra clarity wrap of PyccelAnd (operators.py lines 825-828):
PyccelOr operands are parenthesized regardless of precedence. -/
def wrapOrArgs (args : List PyExpr) : List PyExpr :=
  args.map (fun a => if isOrNode a then PyExpr.node .paren [a] else a)

/-- The extra clarity wrap of PyccelOr (operators.py lines 851-854):
PyccelAnd operands are parenthesized regardless of precedence. -/
def wrapAndArgs (args : List PyExpr) : List PyExpr :=
  args.map (fun a => if isAndNode a then PyExpr.node .paren [a] else a)

/-- The `_handle_precedence` method run by the operator class of kind `k`:
PyccelAssociativeParenthesis skips the processing entirely; PyccelUnary,
PyccelUnarySub and the arithmetic operators additionally parenthesize unary
operands; PyccelAnd additionally parenthesizes or-nodes and PyccelOr
additionally parenthesizes and-nodes; every other class uses the base
method alone. -/
def handle_precedence (k : OpKind) (args : List PyExpr) : List PyExpr :=
  match k with
  | .paren => args
  | .unary => wrapUnaryArgs (handle_precedence_base (opPrec .unary) args)
  | .unarySub => wrapUnaryArgs (handle_precedence_base (opPrec .unarySub) args)
  | .pow => wrapUnaryArgs (handle_precedence_base (opPrec .pow) args)
  | .add => wrapUnaryArgs (handle_precedence_base (opPrec .add) args)
  | .minus => wrapUnaryArgs (handle_precedence_base (opPrec .minus) args)
  | .mul => wrapUnaryArgs (handle_precedence_base (opPrec .mul) args)
  | .div => wrapUnaryArgs (handle_precedence_base (opPrec .div) args)
  | .mod => wrapUnaryArgs (handle_precedence_base (opPrec .mod) args)
  | .floorDiv => wrapUnaryArgs (handle_precedence_base (opPrec .floorDiv) args)
  | .opAnd => wrapOrArgs (handle_precedence_base (opPrec .opAnd) args)
  | .opOr => wrapAndArgs (handle_precedence_base (opPrec .opOr) args)
  | k => handle_precedence_base (opPrec k) args

/-- Construction of an operator node (PyccelOperator.__init__ line 110
stores the precedence-processed arguments). -/
def mkOp (k : OpKind) (args : List PyExpr) : PyExpr :=
  .node k (handle_precedence k args)

/-- The clarity rules as a predicate on the operator kind and one operand. -/
def clarityWrap (k : OpKind) (a : PyExpr) : Bool :=
  match k with
  | .unary => isUnaryClassNode a
  | .unarySub => isUnaryClassNode a
  | .pow => isUnaryClassNode a
  | .add => isUnaryClassNode a
  | .minus => isUnaryClassNode a
  | .mul => isUnaryClassNode a
  | .div => isUnaryClassNode a
  | .mod => isUnaryClassNode a
  | .floorDiv => isUnaryClassNode a
  | .opAnd => isOrNode a
  | .opOr => isAndNode a
  | _ => false

/-- A candidate admissible type of one interface parameter, as collected in
types_dict by `_print_Interface`: the parameter variable's name, its scalar
dtype and precision, and the dispatch flag looked up in the flags registry.
Modelled from the spec where the flags registry of the cwrapper module
(outside the studied sources) is concerned: flags are fixed 4-bit codes,
unique per (kind, precision) pair. -/
structure TCand where
  name : String
  dtype : DType
  precision : Nat
  flag : Nat
deriving DecidableEq

/-- The runtime python object supplied for one parameter, abstracted by the
set of scalar (kind, precision) types whose generated type check it passes.
Modelled from the spec: scalar_object_check of the cwrapper module is
outside the studied sources. -/
abbrev PyObj := List (DType × Nat)

/-- Whether the supplied object passes the generated type check of one
candidate type. -/
def candCheck (o : PyObj) (c : TCand) : Bool := decide ((c.dtype, c.precision) ∈ o)

/-- Stable insertion into a precision-sorted candidate list. -/
def insertByPrec (c : TCand) : List TCand → List TCand
  | [] => [c]
  | d :: rest =>
    if c.precision ≤ d.precision then c :: d :: rest else d :: insertByPrec c rest

/-- `arg_type_check_list.sort(key = precision)` (cwrappercode.py line 689):
a stable sort of the candidates by ascending precision. -/
def sortByPrec : List TCand → List TCand
  | [] => []
  | c :: rest => insertByPrec c (sortByPrec rest)

/-- `var_name` after the candidate loop of `_create_wrapper_check`: the name
of the last candidate, or the empty string when there are none (matching the
initialisation at line 685). -/
def lastName (l : List TCand) : String := l.getLast?.elim ("") (fun c => c.name)

/-- The result of the generated type_check function: the assembled dispatch
key, or a TypeError naming a parameter and listing its admissible types
(upon which the generated code returns 0). -/
inductive TCResult where
  | okVal : Nat → TCResult
  | typeErr : String → List TCand → TCResult
deriving DecidableEq

/-- Evaluation of the body generated by `_create_wrapper_check`
(cwrappercode.py lines 681-711): one if-chain per parameter, the candidates
tested in ascending precision order; the first passing candidate adds its
flag shifted left by the parameter's slot (`elem[2] << flags` with `flags`
starting at 4*(number of parameters - 1) and decreasing by 4), and the
final else section reports the TypeError and returns 0. -/
def typeCheckGo : List (List TCand × PyObj) → Nat → Nat → TCResult
  | [], _, acc => .okVal acc
  | (cands, o) :: rest, shift, acc =>
    let sorted := sortByPrec cands
    match sorted.find? (candCheck o) with
    | some c => typeCheckGo rest (shift - 4) (acc + (c.flag <<< shift))
    | none => .typeErr (lastName sorted) sorted

/-- The generated type_check function applied to the parsed objects: the
check value starts at 0 and the first parameter's slot is 4 bits per later
parameter. -/
def typeCheckFun (tdict : List (List TCand)) (objs : List PyObj) : TCResult :=
  typeCheckGo (tdict.zip objs) ((tdict.length - 1) * 4) 0

/-- The precomputed type key of one member signature:
`flags = (flags << 4) + flag_value` folded over its parameters
(cwrappercode.py lines 595-596). -/
def computeTypeKey (argFlags : List Nat) : Nat :=
  argFlags.foldl (fun f v => (f <<< 4) + v) 0

/-- Outcome of the dispatcher body on a parsed call: return null, call the
mini wrapper of member signature i, or report that the argument combination
does not exist. -/
inductive DispatchOutcome where
  | nullReturn
  | callFunc : Nat → DispatchOutcome
  | typeErrorNoCombination
deriving DecidableEq

/-- First-true-section semantics of an If node (the generated if / else-if
chain); the sections built below always end with a LiteralTrue section. -/
def firstTrueSection : List (Bool × DispatchOutcome) → DispatchOutcome
  | [] => .typeErrorNoCombination
  | (c, o) :: rest => if c then o else firstTrueSection rest

/-- The per-signature sections of the dispatcher, built in registration
order (cwrappercode.py lines 643-645): one `check == key` section per
member signature, calling its mini wrapper. -/
def dispatchSections (keys : List Nat) (check : Nat) (i : Nat) :
    List (Bool × DispatchOutcome) :=
  match keys with
  | [] => []
  | k :: rest => (decide (check = k), .callFunc i) :: dispatchSections rest check (i + 1)

/-- The dispatcher body (cwrappercode.py lines 643-656): a null return when
the check value is falsy, then the per-signature key comparisons in
registration order, then the TypeError else section. -/
def interfaceDispatch (keys : List Nat) (check : Nat) : DispatchOutcome :=
  firstTrueSection
    ((decide (check = 0), .nullReturn)
      :: (dispatchSections keys check 0 ++ [(true, .typeErrorNoCombination)]))

/-- The check value handed to the dispatcher: the assembled key, or 0 after
a type error (the generated check function returns 0 there). -/
def tcValue : TCResult → Nat
  | .okVal v => v
  | .typeErr _ _ => 0

/-- The interface wrapper after a successful argument parse: run the
generated type_check function, then dispatch on its value
(cwrappercode.py lines 653-667). -/
def interfaceRun (keys : List Nat) (tdict : List (List TCand)) (objs : List PyObj) :
    DispatchOutcome :=
  interfaceDispatch keys (tcValue (typeCheckFun tdict objs))

/-- The overload set of the spec's dispatcher example: two parameters, each
admitting int32 (flag 5) or real64 (flag 11). -/
def exTdict : List (List TCand) :=
  [[⟨("a"), DType.int, 32, 5⟩, ⟨("a"), DType.real, 64, 11⟩],
   [⟨("b"), DType.int, 32, 5⟩, ⟨("b"), DType.real, 64, 11⟩]]

/-- A call supplying two 64-bit reals. -/
def exObjs : List PyObj := [[(DType.real, 64)], [(DType.real, 64)]]

/-- Statements of the generated single-function adapter, at the granularity
the wrapper behaviour is stated at. -/
inductive WStmt where
  | pyErrSetString : String → String → WStmt
  | aliasAssignResultNil : WStmt
  | returnResult : WStmt
  | keywordListDecl : List String → WStmt
  | defaultAssignStmt : String → WStmt
  | parseTupleCheck : WStmt
  | bodyTranslation : String → WStmt
  | implCall : String → WStmt
  | resultCast : String → WStmt
  | buildValue : WStmt
  | decrefStmt : WStmt
  | deallocStmt : String → WStmt
deriving DecidableEq

/-- A formal parameter of an exposed function signature. -/
structure WArg where
  name : String
  isFunctionAddress : Bool
  hasDefault : Bool
  rank : Nat
deriving DecidableEq

/-- An exposed function signature. -/
structure WFunc where
  name : String
  is_private : Bool
  arguments : List WArg
  results : List String
deriving DecidableEq

/-- `_print_FunctionDef` of the C wrapper printer (cwrappercode.py lines
765-885), modelled at statement granularity for the C target: a private
signature, or one with a function-address parameter, generates only the
NotImplementedError report, a null result assignment and the return
(lines 789-804); otherwise the full keyword-list / default / parse /
translate / call / cast / build / free body is generated. -/
def print_FunctionDef (f : WFunc) : List WStmt :=
  if f.is_private then
    [.pyErrSetString ("PyExc_NotImplementedError")
        ("Private functions are not accessible from python"),
     .aliasAssignResultNil, .returnResult]
  else if f.arguments.any (fun a => a.isFunctionAddress) then
    [.pyErrSetString ("PyExc_NotImplementedError")
        ("Cannot pass a function as an argument"),
     .aliasAssignResultNil, .returnResult]
  else
    [WStmt.keywordListDecl (f.arguments.map (fun a => a.name))]
      ++ (f.arguments.filter (fun a => a.hasDefault)).map (fun a => WStmt.defaultAssignStmt a.name)
      ++ [WStmt.parseTupleCheck]
      ++ f.arguments.map (fun a => WStmt.bodyTranslation a.name)
      ++ [WStmt.implCall f.name]
      ++ f.results.map (fun r => WStmt.resultCast r)
      ++ [WStmt.buildValue]
      ++ f.results.map (fun _ => WStmt.decrefStmt)
      ++ (f.arguments.filter (fun a => decide (0 < a.rank))).map (fun a => WStmt.deallocStmt a.name)
      ++ [WStmt.returnResult]

/-- Whether a statement parses or type-checks arguments or calls the
compiled implementation. -/
def isArgProcessing : WStmt → Bool
  | .parseTupleCheck => true
  | .bodyTranslation _ => true
  | .implCall _ => true
  | _ => false

end Pyccel

namespace Pyccel

/-- C2: the claim states that when neither side of an aligned dimension pair
is provably equal to the other nor provably the literal 1, and exactly one
side is a compile-time constant, the resolver keeps the non-constant
(symbolic) side.  Counterexample: for the pair (literal 5, symbol n) all the
claim's hypotheses hold, yet the resolver keeps the constant literal 5, not
the symbol n (operators.py lines 81-84 append the constant side). -/
theorem C2_counterexample :
    broadcastDim [DimExpr.lit 5] [DimExpr.sym ("n")] (DimExpr.lit 5) (DimExpr.sym ("n"))
        = Except.ok (DimExpr.lit 5)
      ∧ dimEq (DimExpr.lit 5) (DimExpr.sym ("n")) = false
      ∧ dimIsOne (DimExpr.lit 5) = false
      ∧ dimIsOne (DimExpr.sym ("n")) = false
      ∧ isConstantDim (DimExpr.lit 5) = true
      ∧ isConstantDim (DimExpr.sym ("n")) = false
      ∧ DimExpr.lit 5 ≠ DimExpr.sym ("n") := by
  refine ⟨rfl, rfl, rfl, rfl, rfl, rfl, ?_⟩
  decide

/-- C2 (amended): for every aligned dimension pair where neither side is
provably equal to the other nor provably the literal 1, and exactly one side
is a compile-time constant, the resolver keeps the CONSTANT side as the
result dimension. -/
theorem C2_keeps_constant_side (s1 s2 : List DimExpr) (e1 e2 : DimExpr)
    (hne : dimEq e1 e2 = false) (h1 : dimIsOne e1 = false) (h2 : dimIsOne e2 = false)
    (hx : isConstantDim e1 ≠ isConstantDim e2) :
    broadcastDim s1 s2 e1 e2 = .ok (if isConstantDim e1 then e1 else e2) := by
  cases hc1 : isConstantDim e1 <;> cases hc2 : isConstantDim e2 <;>
    simp_all [broadcastDim]

/-- C2 witness: the amended theorem applied at the concrete pair
(literal 5, symbol n). -/
theorem C2_witness :
    broadcastDim [] [] (DimExpr.lit 5) (DimExpr.sym ("n")) = .ok (DimExpr.lit 5) := by
  have h := C2_keeps_constant_side [] [] (DimExpr.lit 5) (DimExpr.sym ("n"))
    rfl rfl rfl (by decide)
  simpa using h

/-- C1: for a binary arithmetic operator on numeric operands with known ranks
and fully known shapes, the claim says the inferred shape is the broadcast of
the FIRST operand's shape with the SECOND operand's shape.  The source
(operators.py line 420) instead broadcasts the second operand's shape with
itself: on operands shaped (3,1) and (1,4) it infers shape (1,4), while the
broadcast of (3,1) with (1,4) is (3,4). -/
theorem C1_code_eval :
    PyccelBinaryOperator_calculate_shape_rank
        (vecNode DType.real 64 [3, 1]) (vecNode DType.real 64 [1, 4])
        = .ok (some [some (DimExpr.lit 1), some (DimExpr.lit 4)], some 2)
      ∧ broadcast [DimExpr.lit 3, DimExpr.lit 1] [DimExpr.lit 1, DimExpr.lit 4]
        = .ok [DimExpr.lit 3, DimExpr.lit 4]
      ∧ ([some (DimExpr.lit 1), some (DimExpr.lit 4)] : List (Option DimExpr))
        ≠ [some (DimExpr.lit 3), some (DimExpr.lit 4)] := by
  refine ⟨rfl, rfl, by decide⟩

/-- C3: the claim says comparison nodes always infer rank 0 and the empty
shape.  Counterexample: a comparison of two rank-1 int32 operands of shape
(3,) infers rank 1 and shape (3,), because PyccelComparisonOperator inherits
PyccelBinaryOperator's broadcasting `_calculate_shape_rank`. -/
theorem C3_counterexample :
    PyccelComparisonOperator_calculate_shape_rank
        (vecNode DType.int 32 [3]) (vecNode DType.int 32 [3])
        = .ok (some [some (DimExpr.lit 3)], some 1)
      ∧ (some 1 : Option Nat) ≠ some 0 :=
  ⟨rfl, by decide⟩

/-- C3 (amended): comparison nodes and and/or and is/is-not nodes always
infer dtype bool with the default bool precision regardless of operand
types; and/or and is/is-not nodes always infer rank 0 and the empty shape;
but a comparison node's rank and shape follow the broadcasting rule
inherited from PyccelBinaryOperator, not rank 0. -/
theorem C3_bool_dtype (args : List TypedExpr) (arg1 arg2 : TypedExpr) :
    PyccelComparisonOperator_calculate_dtype args = (DType.bool, some default_precision_bool)
      ∧ PyccelBooleanOperator_calculate_dtype args = (DType.bool, some default_precision_bool)
      ∧ PyccelBooleanOperator_calculate_shape_rank args = (some [], some 0)
      ∧ PyccelComparisonOperator_calculate_shape_rank arg1 arg2
          = PyccelBinaryOperator_calculate_shape_rank arg1 arg2 :=
  ⟨rfl, rfl, rfl, rfl⟩

/-- C7: binary arithmetic type promotion on numeric operands agrees with the
spec: the result kind is the highest present bucket (complex > real >
integer-or-bool) with the maximal precision of that bucket, integer division
being the sole exception (default real precision); in particular
add(int32, real64) gives (real, 64), div(int32, int32) gives (real, default
real precision) and floor_div(int32, int32) gives (integer, 32). -/
theorem C7_promotion (op : ArithOp) (a b : TypedExpr)
    (ha : a.dtype = DType.bool ∨ a.dtype = DType.int ∨ a.dtype = DType.real
            ∨ a.dtype = DType.cmplx)
    (hb : b.dtype = DType.bool ∨ b.dtype = DType.int ∨ b.dtype = DType.real
            ∨ b.dtype = DType.cmplx) :
    PyccelBinaryOperator_calculate_dtype op [a, b] = .ok (specPromote op a b)
      ∧ PyccelBinaryOperator_calculate_dtype ArithOp.add
          [scalarNode DType.int 32, scalarNode DType.real 64] = .ok (DType.real, some 64)
      ∧ PyccelBinaryOperator_calculate_dtype ArithOp.div
          [scalarNode DType.int 32, scalarNode DType.int 32]
          = .ok (DType.real, some default_precision_real)
      ∧ PyccelBinaryOperator_calculate_dtype ArithOp.floorDiv
          [scalarNode DType.int 32, scalarNode DType.int 32] = .ok (DType.int, some 32) := by
  refine ⟨?_, rfl, rfl, rfl⟩
  rcases ha with ha | ha | ha | ha <;> rcases hb with hb | hb | hb | hb <;>
    by_cases hop : op = ArithOp.div <;>
      simp [PyccelBinaryOperator_calculate_dtype, specPromote, specBucket, maxPrec,
            ha, hb, hop, handle_str_type]

/-- C7 witness: the general promotion statement applied to the concrete
operands int32 and real64 under addition. -/
theorem C7_witness :
    PyccelBinaryOperator_calculate_dtype ArithOp.add
        [scalarNode DType.int 32, scalarNode DType.real 64]
      = .ok (specPromote ArithOp.add (scalarNode DType.int 32) (scalarNode DType.real 64)) :=
  (C7_promotion ArithOp.add (scalarNode DType.int 32) (scalarNode DType.real 64)
    (Or.inr (Or.inl rfl)) (Or.inr (Or.inr (Or.inl rfl)))).1

/-- C5: the claim says constructing a ternary node reports a fatal error when
either branch has string type.  The source however tests
`isinstance(value_true, NativeString)` against the datatype class, which no
expression node satisfies, so a ternary whose two branches are string-typed
scalars constructs successfully without any error: the dedicated message
"String is not implemented for Ternary Operator" is unreachable. -/
theorem C5_code_eval :
    IfTernaryOperator_new (scalarNode DType.bool 8) strScalarNode strScalarNode
        = .ok ⟨DType.str, 0, some [], some 0, none⟩
      ∧ strScalarNode.dtype = DType.str := ⟨rfl, rfl⟩

/-- C10: PyccelAdd folds an integer or float literal with a complex literal
of zero real part, in either argument order, into the complex literal with
the former as real part; PyccelMinus folds analogously for float literals
with the sign negations of subtraction; non-literal arguments fall through
to a genuine operator node. -/
theorem C10_literal_folding (x b : Rat) (n : Int) :
    PyccelAdd_new_fold (.litFloat x) (.litComplex 0 b) = some (.litComplex x b)
      ∧ PyccelAdd_new_fold (.litComplex 0 b) (.litFloat x) = some (.litComplex x b)
      ∧ PyccelAdd_new_fold (.litInt n) (.litComplex 0 b) = some (.litComplex (n : Rat) b)
      ∧ PyccelAdd_new_fold (.litComplex 0 b) (.litInt n) = some (.litComplex (n : Rat) b)
      ∧ PyccelMinus_new_fold (.litFloat x) (.litComplex 0 b) = some (.litComplex x (-b))
      ∧ PyccelMinus_new_fold (.litComplex 0 b) (.litFloat x) = some (.litComplex (-x) b)
      ∧ PyccelAdd_new_fold .otherNode .otherNode = none := by
  refine ⟨?_, ?_, ?_, ?_, ?_, ?_, rfl⟩ <;>
    simp [PyccelAdd_new_fold, PyccelMinus_new_fold, isIntOrFloatLit, isFloatLit,
          complexRe, complexIm, litValue]

/-- Helper: the minimum of a list bounds each member from below. -/
theorem listMin_le_of_mem : ∀ (l : List Nat) (x : Nat), x ∈ l → listMin l ≤ x := by
  intro l
  induction l with
  | nil => intro x hx; cases hx
  | cons y ys ih =>
    intro x hx
    cases ys with
    | nil =>
      rw [List.mem_singleton] at hx
      rw [hx]
      exact Nat.le_refl _
    | cons z zs =>
      rcases List.mem_cons.mp hx with h | h
      · rw [h] at *
        exact min_le_left _ _
      · calc listMin (y :: z :: zs) = min y (listMin (z :: zs)) := rfl
          _ ≤ listMin (z :: zs) := min_le_right _ _
          _ ≤ x := ih x h

/-- Helper: the base precedence handler wraps exactly the operands of lower
precedence and the equal-precedence operands in non-first position. -/
theorem handle_precedence_base_get (p : Nat) (args : List PyExpr) (i : Nat) (a : PyExpr)
    (h : args.get? i = some a) :
    (handle_precedence_base p args).get? i
      = some (if precedence a < p ∨ (precedence a = p ∧ i ≠ 0)
              then PyExpr.node .paren [a] else a) := by
  unfold handle_precedence_base
  by_cases hmin : listMin (args.map precedence) ≤ p
  · rw [if_pos hmin, List.get?_map, List.get?_enum, h]
    rfl
  · rw [if_neg hmin, h]
    have hmem : precedence a ∈ args.map precedence :=
      List.mem_map_of_mem precedence (List.get?_mem h)
    have hgt : p < precedence a :=
      Nat.lt_of_lt_of_le (Nat.lt_of_not_le hmin) (listMin_le_of_mem _ _ hmem)
    have hcond : ¬ (precedence a < p ∨ (precedence a = p ∧ i ≠ 0)) := by
      rintro (hlt | ⟨heq, _⟩)
      · exact Nat.lt_asymm hgt hlt
      · rw [heq] at hgt
        exact Nat.lt_irrefl _ hgt
    rw [if_neg hcond]

/-- Helper: composing the base handler with a clarity-wrap map, when the
clarity predicate never holds of a parenthesis node. -/
theorem handle_then_wrap_get (p : Nat) (f : PyExpr → Bool)
    (hf : ∀ x, f (PyExpr.node .paren [x]) = false)
    (args : List PyExpr) (i : Nat) (a : PyExpr) (h : args.get? i = some a) :
    ((handle_precedence_base p args).map
        (fun x => if f x then PyExpr.node .paren [x] else x)).get? i
      = some (if precedence a < p ∨ (precedence a = p ∧ i ≠ 0) ∨ f a = true
              then PyExpr.node .paren [a] else a) := by
  rw [List.get?_map, handle_precedence_base_get p args i a h]
  by_cases hc : precedence a < p ∨ (precedence a = p ∧ i ≠ 0)
  · rw [if_pos hc, if_pos (Or.elim hc (fun x => Or.inl x) (fun x => Or.inr (Or.inl x)))]
    simp [hf]
  · rw [if_neg hc]
    by_cases hfa : f a = true
    · rw [if_pos (Or.inr (Or.inr hfa))]
      simp [hfa]
    · have hcond : ¬ (precedence a < p ∨ (precedence a = p ∧ i ≠ 0) ∨ f a = true) := by
        rintro (h1 | h2 | h3)
        · exact hc (Or.inl h1)
        · exact hc (Or.inr h2)
        · exact hfa h3
      rw [if_neg hcond]
      simp [hfa]

/-- C8: as stated, the claim predicts a wrap exactly when `q < p`, or
`q == p` and `i != 0`.  Counterexample: PyccelOr applied to a PyccelAnd
first operand (q = 5 > p = 4, i = 0) nevertheless wraps that operand, by
PyccelOr's extra clarity rule. -/
theorem C8_counterexample :
    mkOp .opOr [mkOp .opAnd [PyExpr.atom ("a"), PyExpr.atom ("b")], PyExpr.atom ("c")]
        = PyExpr.node .opOr
            [PyExpr.node .paren [PyExpr.node .opAnd [PyExpr.atom ("a"), PyExpr.atom ("b")]],
             PyExpr.atom ("c")]
      ∧ ¬ (precedence (PyExpr.node .opAnd [PyExpr.atom ("a"), PyExpr.atom ("b")]) < opPrec .opOr
            ∨ (precedence (PyExpr.node .opAnd [PyExpr.atom ("a"), PyExpr.atom ("b")]) = opPrec .opOr
                ∧ (0 : Nat) ≠ 0)) :=
  ⟨rfl, by decide⟩

/-- C8 (amended): for every operator node other than a parenthesis node, the
operand at position i with precedence q under an operator of precedence p is
wrapped in a parenthesis node exactly when `q < p`, or `q == p` and
`i != 0`, or the clarity rules apply (a unary plus/minus operand of a unary
or arithmetic operator; an and-operand of or; an or-operand of and). -/
theorem C8_wrap_rule (k : OpKind) (args : List PyExpr) (i : Nat) (a : PyExpr)
    (hk : k ≠ OpKind.paren) (h : args.get? i = some a) :
    (handle_precedence k args).get? i
      = some (if precedence a < opPrec k ∨ (precedence a = opPrec k ∧ i ≠ 0)
                 ∨ clarityWrap k a = true
              then PyExpr.node .paren [a] else a) := by
  cases k
  case paren => exact absurd rfl hk
  case unary =>
    exact handle_then_wrap_get _ isUnaryClassNode (fun x => rfl) args i a h
  case unarySub =>
    exact handle_then_wrap_get _ isUnaryClassNode (fun x => rfl) args i a h
  case pow =>
    exact handle_then_wrap_get _ isUnaryClassNode (fun x => rfl) args i a h
  case add =>
    exact handle_then_wrap_get _ isUnaryClassNode (fun x => rfl) args i a h
  case minus =>
    exact handle_then_wrap_get _ isUnaryClassNode (fun x => rfl) args i a h
  case mul =>
    exact handle_then_wrap_get _ isUnaryClassNode (fun x => rfl) args i a h
  case div =>
    exact handle_then_wrap_get _ isUnaryClassNode (fun x => rfl) args i a h
  case mod =>
    exact handle_then_wrap_get _ isUnaryClassNode (fun x => rfl) args i a h
  case floorDiv =>
    exact handle_then_wrap_get _ isUnaryClassNode (fun x => rfl) args i a h
  case opAnd =>
    exact handle_then_wrap_get _ isOrNode (fun x => rfl) args i a h
  case opOr =>
    exact handle_then_wrap_get _ isAndNode (fun x => rfl) args i a h
  all_goals
    simpa [handle_precedence, clarityWrap] using handle_precedence_base_get _ args i a h

/-- C8 witness: the amended rule applied to the PyccelOr node whose first
operand is a PyccelAnd node: the clarity rule forces the wrap. -/
theorem C8_witness :
    (handle_precedence .opOr
        [PyExpr.node .opAnd [PyExpr.atom ("a"), PyExpr.atom ("b")], PyExpr.atom ("c")]).get? 0
      = some (PyExpr.node .paren [PyExpr.node .opAnd [PyExpr.atom ("a"), PyExpr.atom ("b")]]) := by
  have h := C8_wrap_rule .opOr
    [PyExpr.node .opAnd [PyExpr.atom ("a"), PyExpr.atom ("b")], PyExpr.atom ("c")] 0
    (PyExpr.node .opAnd [PyExpr.atom ("a"), PyExpr.atom ("b")]) (by decide) rfl
  simpa [clarityWrap, isAndNode, precedence, opPrec] using h

/-- C4: the claim says that when two member signatures share a type key, a
call whose dispatch key equals it invokes the LATER-registered signature's
wrapper body.  Counterexample: with two signatures of equal key 0x55 (two
int32 parameters, flags 5 and 5), the generated if / else-if chain matches
the first section, so the earlier-registered signature (index 0) is
called. -/
theorem C4_counterexample :
    computeTypeKey [5, 5] = 85
      ∧ interfaceDispatch [85, 85] 85 = .callFunc 0
      ∧ DispatchOutcome.callFunc 0 ≠ DispatchOutcome.callFunc 1 :=
  ⟨rfl, rfl, by decide⟩

/-- Helper: the key-comparison chain selects the first matching key. -/
theorem dispatchSections_first : ∀ (keys : List Nat) (check base i : Nat)
    (tail : List (Bool × DispatchOutcome)),
    keys.get? i = some check →
    (∀ j, j < i → keys.get? j ≠ some check) →
    firstTrueSection (dispatchSections keys check base ++ tail)
      = .callFunc (base + i) := by
  intro keys
  induction keys with
  | nil => intro check base i tail hk _; simp at hk
  | cons k rest ih =>
    intro check base i tail hk hfirst
    cases i with
    | zero =>
      have hkk : k = check := by simpa using hk
      simp [dispatchSections, firstTrueSection, hkk]
    | succ n =>
      have hne : ¬ (check = k) := by
        intro he
        exact hfirst 0 (Nat.succ_pos n) (by simp [he])
      have hk' : rest.get? n = some check := by simpa using hk
      have hfirst' : ∀ j, j < n → rest.get? j ≠ some check := by
        intro j hj hmem
        exact hfirst (j + 1) (Nat.succ_lt_succ hj) (by simpa using hmem)
      have step : firstTrueSection (dispatchSections (k :: rest) check base ++ tail)
          = firstTrueSection (dispatchSections rest check (base + 1) ++ tail) := by
        rw [dispatchSections, List.cons_append, firstTrueSection,
            if_neg (by simpa using hne)]
      rw [step, ih check (base + 1) n tail hk' hfirst']
      congr 1
      omega

/-- C4 (amended): when the assembled runtime dispatch key is nonzero and
equals the precomputed type key of a member signature, the dispatcher
invokes the EARLIEST-registered signature whose key matches; in particular
when two signatures share a key the earlier-registered one wins. -/
theorem C4_earliest_wins (keys : List Nat) (check : Nat) (i : Nat)
    (hc : check ≠ 0) (hk : keys.get? i = some check)
    (hfirst : ∀ j, j < i → keys.get? j ≠ some check) :
    interfaceDispatch keys check = .callFunc i := by
  have step : interfaceDispatch keys check
      = firstTrueSection (dispatchSections keys check 0
          ++ [(true, DispatchOutcome.typeErrorNoCombination)]) := by
    rw [interfaceDispatch, firstTrueSection, if_neg (by simpa using hc)]
  rw [step]
  simpa using dispatchSections_first keys check 0 i _ hk hfirst

/-- C4 witness: the amended theorem applied to the duplicate key pair
0x55, 0x55 with runtime key 0x55: the earlier signature is invoked. -/
theorem C4_witness : interfaceDispatch [85, 85] 85 = .callFunc 0 := by
  have h := C4_earliest_wins [85, 85] 85 0 (by decide) rfl
    (fun j hj => absurd hj (Nat.not_lt_zero j))
  simpa using h

/-- C9: a private signature, or one with a callable-typed (function address)
parameter, generates an adapter that only reports the
NotImplementedError-class failure, assigns a null result and returns; it
contains no argument parsing, no type checking and no call to the compiled
implementation. -/
theorem C9_private_or_callable (f : WFunc)
    (h : f.is_private = true ∨ f.arguments.any (fun a => a.isFunctionAddress) = true) :
    print_FunctionDef f
        = [WStmt.pyErrSetString ("PyExc_NotImplementedError")
             (if f.is_private then ("Private functions are not accessible from python")
              else ("Cannot pass a function as an argument")),
           WStmt.aliasAssignResultNil, WStmt.returnResult]
      ∧ ∀ s ∈ print_FunctionDef f, isArgProcessing s = false := by
  by_cases hp : f.is_private = true
  · constructor
    · simp [print_FunctionDef, hp]
    · intro s hs
      simp [print_FunctionDef, hp] at hs
      rcases hs with hs | hs | hs <;> rw [hs] <;> rfl
  · have ha : f.arguments.any (fun a => a.isFunctionAddress) = true := by
      rcases h with h | h
      · exact absurd h hp
      · exact h
    constructor
    · simp [print_FunctionDef, hp, ha]
    · intro s hs
      simp [print_FunctionDef, hp, ha] at hs
      rcases hs with hs | hs | hs <;> rw [hs] <;> rfl

/-- C9 witness: the theorem applied to a concrete private signature. -/
theorem C9_witness :
    print_FunctionDef ⟨("f"), true, [], [("r")]⟩
      = [WStmt.pyErrSetString ("PyExc_NotImplementedError")
           ("Private functions are not accessible from python"),
         WStmt.aliasAssignResultNil, WStmt.returnResult] := by
  have h := C9_private_or_callable ⟨("f"), true, [], [("r")]⟩ (Or.inl rfl)
  simpa using h.1

/-- Helper: shifting a left fold of the key accumulator out of the
accumulator. -/
theorem typeKeyFold_acc (fs : List Nat) : ∀ (a : Nat),
    fs.foldl (fun x y => (x <<< 4) + y) a
      = a * 16 ^ fs.length + fs.foldl (fun x y => (x <<< 4) + y) 0 := by
  induction fs with
  | nil => intro a; simp
  | cons f fs ih =>
    intro a
    simp only [List.foldl_cons, List.length_cons]
    rw [ih ((a <<< 4) + f), ih ((0 <<< 4) + f)]
    have hsh : ∀ n : Nat, (n <<< 4) = n * 16 := by
      intro n
      rw [Nat.shiftLeft_eq]
    rw [hsh a, hsh 0]
    ring

/-- Helper: the type key of a candidate flag list, one step. -/
theorem computeTypeKey_cons (f : Nat) (fs : List Nat) :
    computeTypeKey (f :: fs) = f * 16 ^ fs.length + computeTypeKey fs := by
  unfold computeTypeKey
  simp only [List.foldl_cons]
  rw [typeKeyFold_acc fs ((0 <<< 4) + f)]
  simp [Nat.shiftLeft_eq]

/-- Helper: a successful Option mapM preserves the length. -/
theorem mapM_option_length {α β : Type} (f : α → Option β) :
    ∀ (l : List α) (r : List β), l.mapM f = some r → r.length = l.length := by
  intro l
  induction l with
  | nil =>
    intro r h
    rw [List.mapM_nil] at h
    simp only [Option.pure_def, Option.some.injEq] at h
    rw [← h]
    rfl
  | cons x xs ih =>
    intro r h
    rw [List.mapM_cons] at h
    cases hx : f x with
    | none => rw [hx] at h; simp at h
    | some y =>
      rw [hx] at h
      cases hxs : xs.mapM f with
      | none => rw [hxs] at h; simp at h
      | some ys =>
        rw [hxs] at h
        simp at h
        subst h
        simp [ih ys hxs]

/-- Helper: when every parameter has a passing candidate, the generated
check body accumulates exactly the left-to-right 4-bit fold of the selected
flags. -/
theorem typeCheckGo_ok : ∀ (pairs : List (List TCand × PyObj)) (acc : Nat)
    (sel : List TCand),
    pairs.mapM (fun p => (sortByPrec p.1).find? (candCheck p.2)) = some sel →
    typeCheckGo pairs ((pairs.length - 1) * 4) acc
      = .okVal (acc + computeTypeKey (sel.map (fun c => c.flag))) := by
  intro pairs
  induction pairs with
  | nil =>
    intro acc sel h
    rw [List.mapM_nil] at h
    simp only [Option.pure_def, Option.some.injEq] at h
    subst h
    simp [typeCheckGo, computeTypeKey]
  | cons p rest ih =>
    intro acc sel h
    obtain ⟨cands, o⟩ := p
    rw [List.mapM_cons] at h
    cases hc : (sortByPrec cands).find? (candCheck o) with
    | none => rw [hc] at h; simp at h
    | some c =>
      rw [hc] at h
      cases hcs : rest.mapM (fun p => (sortByPrec p.1).find? (candCheck p.2)) with
      | none => rw [hcs] at h; simp at h
      | some cs =>
        rw [hcs] at h
        simp at h
        subst h
        have hshift : ((cands, o) :: rest).length - 1 = rest.length := by simp
        rw [hshift]
        show typeCheckGo ((cands, o) :: rest) (rest.length * 4) acc = _
        rw [typeCheckGo]
        simp only [hc]
        have hstep : rest.length * 4 - 4 = (rest.length - 1) * 4 := by omega
        rw [hstep, ih (acc + (c.flag <<< (rest.length * 4))) cs hcs]
        congr 1
        rw [List.map_cons, computeTypeKey_cons]
        have hflag : c.flag <<< (rest.length * 4) = c.flag * 16 ^ rest.length := by
          rw [Nat.shiftLeft_eq]
          rw [show ((2 : Nat) ^ (rest.length * 4)) = (2 ^ 4) ^ rest.length by
            rw [← pow_mul, Nat.mul_comm]]
          norm_num
        have hlen : cs.length = rest.length := mapM_option_length _ rest cs hcs
        rw [List.length_map, hlen, hflag]
        omega

/-- Helper: the first parameter with no passing candidate yields the
TypeError naming it and listing its admissible types, independently of the
shift and accumulator. -/
theorem typeCheckGo_fail : ∀ (good : List (List TCand × PyObj))
    (bad : List TCand × PyObj) (rest : List (List TCand × PyObj)) (shift acc : Nat),
    (∀ p ∈ good, ((sortByPrec p.1).find? (candCheck p.2)).isSome = true) →
    (sortByPrec bad.1).find? (candCheck bad.2) = none →
    typeCheckGo (good ++ bad :: rest) shift acc
      = .typeErr (lastName (sortByPrec bad.1)) (sortByPrec bad.1) := by
  intro good
  induction good with
  | nil =>
    intro bad rest shift acc _ hb
    obtain ⟨cands, o⟩ := bad
    simp only [List.nil_append]
    rw [typeCheckGo]
    simp only at hb
    simp [hb]
  | cons p ps ih =>
    intro bad rest shift acc hg hb
    obtain ⟨cands, o⟩ := p
    have hp := hg (cands, o) (List.mem_cons_self _ _)
    cases hc : (sortByPrec cands).find? (candCheck o) with
    | none => rw [hc] at hp; simp at hp
    | some c =>
      show typeCheckGo ((cands, o) :: (ps ++ bad :: rest)) shift acc = _
      rw [typeCheckGo]
      simp only [hc]
      exact ih bad rest _ _ (fun q hq => hg q (List.mem_cons_of_mem _ hq)) hb

/-- Helper: the dispatcher returns null on a zero check value. -/
theorem interfaceDispatch_zero (keys : List Nat) :
    interfaceDispatch keys 0 = .nullReturn := by
  simp [interfaceDispatch, firstTrueSection]

/-- Helper: membership in an insertion. -/
theorem mem_insertByPrec {x c : TCand} : ∀ {l : List TCand},
    x ∈ insertByPrec c l → x = c ∨ x ∈ l := by
  intro l
  induction l with
  | nil =>
    intro h
    simp [insertByPrec] at h
    exact Or.inl h
  | cons d rest ih =>
    intro h
    rw [insertByPrec] at h
    by_cases hle : c.precision ≤ d.precision
    · rw [if_pos hle] at h
      rcases List.mem_cons.mp h with h | h
      · exact Or.inl h
      · exact Or.inr h
    · rw [if_neg hle] at h
      rcases List.mem_cons.mp h with h | h
      · exact Or.inr (h ▸ List.mem_cons_self d rest)
      · rcases ih h with h | h
        · exact Or.inl h
        · exact Or.inr (List.mem_cons_of_mem _ h)

/-- Helper: inserting into a precision-sorted list keeps it sorted. -/
theorem insertByPrec_pairwise (c : TCand) : ∀ (l : List TCand),
    l.Pairwise (fun a b => a.precision ≤ b.precision) →
    (insertByPrec c l).Pairwise (fun a b => a.precision ≤ b.precision) := by
  intro l
  induction l with
  | nil => intro _; simp [insertByPrec]
  | cons d rest ih =>
    intro h
    rw [List.pairwise_cons] at h
    by_cases hle : c.precision ≤ d.precision
    · rw [insertByPrec, if_pos hle]
      refine List.Pairwise.cons ?_ (List.Pairwise.cons h.1 h.2)
      intro x hx
      rcases List.mem_cons.mp hx with hx | hx
      · rw [hx]; exact hle
      · exact le_trans hle (h.1 x hx)
    · rw [insertByPrec, if_neg hle]
      refine List.Pairwise.cons ?_ (ih h.2)
      intro x hx
      rcases mem_insertByPrec hx with hx | hx
      · rw [hx]
        exact Nat.le_of_lt (Nat.lt_of_not_le hle)
      · exact h.1 x hx

/-- Helper: the generated candidate list is sorted by ascending precision. -/
theorem sortByPrec_sorted : ∀ (cands : List TCand),
    (sortByPrec cands).Pairwise (fun a b => a.precision ≤ b.precision) := by
  intro cands
  induction cands with
  | nil => simp [sortByPrec]
  | cons c rest ih => exact insertByPrec_pairwise c _ ih

/-- C6: in the generated interface type-check function each parameter's
admissible checks are tested in ascending precision order (the candidate
list is precision-sorted) and the first passing flag is folded into the
dispatch key exactly as the signatures' precomputed keys are (4-bit left
shift per later parameter); when some parameter matches no admissible flag,
the first such parameter produces a TypeError naming it and listing all its
admissible types, the check function returns 0, and the dispatcher then
returns null without invoking any overload. -/
theorem C6_type_check (tdict : List (List TCand)) (objs : List PyObj)
    (hlen : tdict.length = objs.length) :
    (∀ sel, (tdict.zip objs).mapM (fun p => (sortByPrec p.1).find? (candCheck p.2))
            = some sel →
        typeCheckFun tdict objs = .okVal (computeTypeKey (sel.map (fun c => c.flag))))
      ∧ (∀ good bad rest,
          tdict.zip objs = good ++ bad :: rest →
          (∀ p ∈ good, ((sortByPrec p.1).find? (candCheck p.2)).isSome = true) →
          (sortByPrec bad.1).find? (candCheck bad.2) = none →
          typeCheckFun tdict objs
              = .typeErr (lastName (sortByPrec bad.1)) (sortByPrec bad.1)
            ∧ ∀ keys, interfaceRun keys tdict objs = .nullReturn)
      ∧ (∀ cands, (sortByPrec cands).Pairwise (fun a b => a.precision ≤ b.precision)) := by
  have hzlen : (tdict.zip objs).length = tdict.length := by
    rw [List.length_zip, hlen, Nat.min_self]
  refine ⟨?_, ?_, sortByPrec_sorted⟩
  · intro sel hsel
    unfold typeCheckFun
    rw [← hzlen]
    simpa using typeCheckGo_ok (tdict.zip objs) 0 sel hsel
  · intro good bad rest hsplit hgood hbad
    have herr : typeCheckFun tdict objs
        = .typeErr (lastName (sortByPrec bad.1)) (sortByPrec bad.1) := by
      unfold typeCheckFun
      rw [hsplit]
      exact typeCheckGo_fail good bad rest _ _ hgood hbad
    refine ⟨herr, ?_⟩
    intro keys
    unfold interfaceRun
    rw [herr]
    exact interfaceDispatch_zero keys

/-- C6 witness: the spec's example, two parameters each admitting int32
(flag 5) or real64 (flag 11), called with two 64-bit reals: the check
function assembles 0xBB = 187. -/
theorem C6_witness : typeCheckFun exTdict exObjs = .okVal 187 := by
  have h := (C6_type_check exTdict exObjs rfl).1
    [⟨("a"), DType.real, 64, 11⟩, ⟨("b"), DType.real, 64, 11⟩] rfl
  simpa [computeTypeKey] using h

end Pyccel
